import Mathlib

deriving instance DecidableEq for Except

/-!
Shallow embedding of the retrieval engine in `trading_retrieval_system.py`
(class `TradingKnowledgeRetriever` and its helpers).

External libraries (FAISS, rank_bm25, OpenAI embeddings, pickle, the clock)
are modelled as explicit inputs:
  * the FAISS searches `similarity_search_with_score` / `similarity_search`
    are function parameters giving the candidate lists for the query;
  * `bm25.get_scores(tokenized_query)` is a parameter `bmScores : List ℚ`,
    one score per corpus chunk;
  * `np.argsort` is modelled as a deterministic stable ascending sort of the
    index range (ties keep ascending index order);
  * `hashlib.md5(...).hexdigest()` is a function parameter `md5`;
  * `time.time()` reads are the parameters `tStart` (at entry, used for the
    cache-expiry check) and `tEnd` (at exit, used for `retrieval_time` and
    the stored cache timestamp);
  * float scores are modelled as ℚ (they are only compared, never combined);
    timestamps and durations, on which the code only uses subtraction and
    ordering, are modelled as ℤ.
-/

namespace TradingRetrieval

/-- A langchain `Document`: page content plus (the distinguishing part of)
its metadata. BM25 scoring and the dedup hash depend only on `pageContent`;
`chunkId` keeps byte-identical contents from different source positions
distinguishable. -/
structure Doc where
  pageContent : String
  chunkId : String
deriving DecidableEq, Repr

def defaultDoc : Doc := ⟨"", ""⟩

/-- The `RetrievalConfig` dataclass (lines 50-65). Paths and float fields are
kept; floats are ℚ. -/
structure RetrievalConfig where
  embeddingModel : String := "text-embedding-3-small"
  baseUrl : Option String := none
  chunkSize : Nat := 1000
  chunkOverlap : Nat := 200
  topKRetrieval : Nat := 5
  pdfFolder : String := "TradingKB"
  faissIndexPath : String := "faiss_index"
  bm25DataPath : String := "bm25_data.pkl"
  maxWorkers : Nat := 4
  batchSize : Nat := 10
  similarityThreshold : ℚ := 0
  enableCaching : Bool := true
  cacheTtl : ℤ := 3600
deriving DecidableEq, Repr

/-- The `RetrievalResult` dataclass (lines 67-75). -/
structure RetrievalResult where
  documents : List Doc
  scores : List ℚ
  retrievalTime : ℤ
  methodUsed : String
  queryHash : String
  totalCandidates : Nat
deriving DecidableEq, Repr

/-- An `OpenAIEmbeddings` client as far as the repository observes it: the
model name and the (optional) `openai_api_base` override it was constructed
with (`_initialize_embeddings`, lines 176-187, 200-206). -/
structure EmbClient where
  model : String
  baseUrl : Option String
deriving DecidableEq, Repr

/-- Errors raised by `retrieve_documents`: the "not loaded" `ValueError`
(line 411) and the "Unknown retrieval method" `ValueError` (line 432). -/
inductive RetrieveErr where
  | notLoaded
  | unknownMethod (m : String)
deriving DecidableEq, Repr

/-- The mutable state of a `TradingKnowledgeRetriever` instance
(`__init__`, lines 159-167). The FAISS store and BM25 object are opaque
library handles, modelled as `Option Nat`; `queryCache` is the python dict
`query_cache` (`none` = `None`, `some entries` = a dict), each entry
`(query_hash, result, timestamp)`. -/
structure Retriever where
  config : RetrievalConfig
  embeddings : Option EmbClient
  vectorStore : Option Nat
  bm25 : Option Nat
  documents : List Doc
  queryCache : Option (List (String × RetrievalResult × ℤ))
deriving DecidableEq, Repr

/-- Score of corpus index `i` in a `get_scores` output (out-of-range reads 0;
all uses are in range). -/
def scoreAt (scores : List ℚ) (i : Nat) : ℚ := scores.getD i 0

/-- Ascending comparison on corpus indices by `(score, index)`: the stable
ascending order `np.argsort(bm25_scores)` produces. -/
def lexLe (s : List ℚ) (i j : Nat) : Prop :=
  scoreAt s i < scoreAt s j ∨ (scoreAt s i = scoreAt s j ∧ i ≤ j)

instance lexLeDec (s : List ℚ) : DecidableRel (lexLe s) := fun i j =>
  inferInstanceAs (Decidable (scoreAt s i < scoreAt s j ∨ (scoreAt s i = scoreAt s j ∧ i ≤ j)))

/-- Descending comparison by `(score, index)` both descending: among equal
scores the higher (later) corpus index comes first. -/
def lexGe (s : List ℚ) (i j : Nat) : Prop :=
  scoreAt s j < scoreAt s i ∨ (scoreAt s i = scoreAt s j ∧ j ≤ i)

instance lexGeDec (s : List ℚ) : DecidableRel (lexGe s) := fun i j =>
  inferInstanceAs (Decidable (scoreAt s j < scoreAt s i ∨ (scoreAt s i = scoreAt s j ∧ j ≤ i)))

/-- Descending score with ties broken by ascending (first-seen) corpus index:
the order the spec sentence for lexical retrieval describes. -/
def lexGeFirst (s : List ℚ) (i j : Nat) : Prop :=
  scoreAt s j < scoreAt s i ∨ (scoreAt s i = scoreAt s j ∧ i ≤ j)

instance lexGeFirstDec (s : List ℚ) : DecidableRel (lexGeFirst s) := fun i j =>
  inferInstanceAs (Decidable (scoreAt s j < scoreAt s i ∨ (scoreAt s i = scoreAt s j ∧ i ≤ j)))

instance lexLeTotal (s : List ℚ) : IsTotal Nat (lexLe s) := by
  constructor
  intro i j
  rcases lt_trichotomy (scoreAt s i) (scoreAt s j) with h | h | h
  · exact Or.inl (Or.inl h)
  · rcases Nat.le_total i j with hij | hij
    · exact Or.inl (Or.inr ⟨h, hij⟩)
    · exact Or.inr (Or.inr ⟨h.symm, hij⟩)
  · exact Or.inr (Or.inl h)

instance lexLeTrans (s : List ℚ) : IsTrans Nat (lexLe s) := by
  constructor
  intro a b c hab hbc
  rcases hab with h1 | ⟨h1, l1⟩
  · rcases hbc with h2 | ⟨h2, l2⟩
    · exact Or.inl (h1.trans h2)
    · exact Or.inl (h2 ▸ h1)
  · rcases hbc with h2 | ⟨h2, l2⟩
    · exact Or.inl (h1 ▸ h2)
    · exact Or.inr ⟨h1.trans h2, l1.trans l2⟩

instance lexGeTotal (s : List ℚ) : IsTotal Nat (lexGe s) := by
  constructor
  intro i j
  rcases lt_trichotomy (scoreAt s i) (scoreAt s j) with h | h | h
  · exact Or.inr (Or.inl h)
  · rcases Nat.le_total i j with hij | hij
    · exact Or.inr (Or.inr ⟨h.symm, hij⟩)
    · exact Or.inl (Or.inr ⟨h, hij⟩)
  · exact Or.inl (Or.inl h)

instance lexGeTrans (s : List ℚ) : IsTrans Nat (lexGe s) := by
  constructor
  intro a b c hab hbc
  rcases hab with h1 | ⟨h1, l1⟩
  · rcases hbc with h2 | ⟨h2, l2⟩
    · exact Or.inl (h2.trans h1)
    · exact Or.inl (h2 ▸ h1)
  · rcases hbc with h2 | ⟨h2, l2⟩
    · exact Or.inl (h1 ▸ h2)
    · exact Or.inr ⟨h1.trans h2, l2.trans l1⟩

instance lexGeAntisymm (s : List ℚ) : IsAntisymm Nat (lexGe s) := by
  constructor
  intro a b hab hba
  rcases hab with h1 | ⟨h1, l1⟩
  · rcases hba with h2 | ⟨h2, l2⟩
    · exact absurd (h1.trans h2) (lt_irrefl _)
    · exact absurd h1 (h2 ▸ lt_irrefl _)
  · rcases hba with h2 | ⟨h2, l2⟩
    · exact absurd h2 (h1 ▸ lt_irrefl _)
    · exact Nat.le_antisymm l2 l1

/-- `np.argsort(scores)`: indices `0..n-1` sorted by ascending score (stable,
so ties keep ascending index order). -/
def argsortAsc (s : List ℚ) : List Nat :=
  List.insertionSort (lexLe s) (List.range s.length)

/-- `np.argsort(scores)[-k:][::-1]` (lines 466 and 508): last `k` entries of
the ascending argsort, reversed. -/
def topIndices (s : List ℚ) (k : Nat) : List Nat :=
  ((argsortAsc s).drop (s.length - k)).reverse

/-- `_bm25_retrieval` (lines 504-513): select `top_indices`, read documents
and (when requested) scores at those indices. -/
def bm25Retrieval (docs : List Doc) (scores : List ℚ) (k : Nat)
    (returnScores : Bool) : List Doc × List ℚ :=
  let topIdx := topIndices scores k
  (topIdx.map (fun i => docs.getD i defaultDoc),
   if returnScores then topIdx.map (scoreAt scores) else [])

/-- Lexical retrieval as the spec sentence for C5 describes it: the `k`
highest-scoring chunks, ties broken by corpus order with the FIRST-seen
(lowest-index) chunk winning. -/
def bm25SpecFirstSeen (docs : List Doc) (scores : List ℚ) (k : Nat)
    (returnScores : Bool) : List Doc × List ℚ :=
  let idxs := (List.insertionSort (lexGeFirst scores) (List.range scores.length)).take k
  (idxs.map (fun i => docs.getD i defaultDoc),
   if returnScores then idxs.map (scoreAt scores) else [])

/-- Lexical retrieval with the tie-break the code actually implements: the
`k` highest-scoring chunks in descending score order, ties broken by corpus
order with the LAST-seen (highest-index) chunk winning. -/
def bm25SpecLastSeen (docs : List Doc) (scores : List ℚ) (k : Nat)
    (returnScores : Bool) : List Doc × List ℚ :=
  let idxs := (List.insertionSort (lexGe scores) (List.range scores.length)).take k
  (idxs.map (fun i => docs.getD i defaultDoc),
   if returnScores then idxs.map (scoreAt scores) else [])

/-- The FAISS phase of `_hybrid_retrieval` (lines 473-479): walk all semantic
candidates, appending each (doc, score) whose content hash is unseen. There
is no length check in this loop. -/
def addFaiss (md5 : String → String) :
    List (Doc × ℚ) → List (Doc × ℚ) → List String → List (Doc × ℚ) × List String
  | [], acc, seen => (acc, seen)
  | (d, s) :: rest, acc, seen =>
    if md5 d.pageContent ∈ seen then addFaiss md5 rest acc seen
    else addFaiss md5 rest (acc ++ [(d, s)]) (md5 d.pageContent :: seen)

/-- The BM25 phase of `_hybrid_retrieval` (lines 481-490): walk the top BM25
indices, breaking once `k` results are collected, appending each unseen
chunk with its BM25 score. -/
def addBm25 (md5 : String → String) (docs : List Doc) (scores : List ℚ) (k : Nat) :
    List Nat → List (Doc × ℚ) → List String → List (Doc × ℚ) × List String
  | [], acc, seen => (acc, seen)
  | idx :: rest, acc, seen =>
    if k ≤ acc.length then (acc, seen)
    else if md5 (docs.getD idx defaultDoc).pageContent ∈ seen then
      addBm25 md5 docs scores k rest acc seen
    else
      addBm25 md5 docs scores k rest
        (acc ++ [(docs.getD idx defaultDoc, scoreAt scores idx)])
        (md5 (docs.getD idx defaultDoc).pageContent :: seen)

/-- `_hybrid_retrieval` (lines 459-492). `faissDocs` is the output of
`similarity_search_with_score(query, k)`. The two python result lists grow in
lockstep, so they are modelled as one list of pairs. -/
def hybridRetrieval (md5 : String → String) (faissDocs : List (Doc × ℚ))
    (docs : List Doc) (bmScores : List ℚ) (k : Nat) (returnScores : Bool) :
    List Doc × List ℚ :=
  let s1 := addFaiss md5 faissDocs [] []
  let s2 := addBm25 md5 docs bmScores k (topIndices bmScores k) s1.1 s1.2
  ((s2.1.take k).map Prod.fst,
   if returnScores then (s2.1.take k).map Prod.snd else [])

/-- One walk of the merge the spec sentence for C1 describes: append each
candidate whose content hash is not yet seen, stopping once `k` total are
collected or the list is exhausted. -/
def specWalk (md5 : String → String) (k : Nat) :
    List (Doc × ℚ) → List (Doc × ℚ) → List String → List (Doc × ℚ) × List String
  | [], acc, seen => (acc, seen)
  | (d, s) :: rest, acc, seen =>
    if k ≤ acc.length then (acc, seen)
    else if md5 d.pageContent ∈ seen then specWalk md5 k rest acc seen
    else specWalk md5 k rest (acc ++ [(d, s)]) (md5 d.pageContent :: seen)

/-- The lexical candidate list of `_hybrid_retrieval`: the top BM25 indices
paired with their documents and scores. -/
def lexCandidates (docs : List Doc) (scores : List ℚ) (k : Nat) : List (Doc × ℚ) :=
  (topIndices scores k).map (fun i => (docs.getD i defaultDoc, scoreAt scores i))

/-- The hybrid merge as the spec sentence for C1 describes it: walk semantic
candidates first, then lexical candidates, appending unseen chunks until `k`
are collected or both lists are exhausted. -/
def specHybridMerge (md5 : String → String) (semCands lexCands : List (Doc × ℚ))
    (k : Nat) : List (Doc × ℚ) :=
  let s1 := specWalk md5 k semCands [] []
  (specWalk md5 k lexCands s1.1 s1.2).1

/-- `_faiss_retrieval` (lines 494-502): with scores, unzip the scored search
results; without, use the unscored search. -/
def faissRetrieval (results : List (Doc × ℚ)) (resultsNoScore : List Doc)
    (returnScores : Bool) : List Doc × List ℚ :=
  if returnScores then (results.map Prod.fst, results.map Prod.snd)
  else (resultsNoScore, [])

/-- Method dispatch inside `retrieve_documents` (lines 425-432): the accepted
method strings are exactly "hybrid", "faiss", "bm25". -/
def dispatchMethod (faissWS : Nat → List (Doc × ℚ)) (faissNS : Nat → List Doc)
    (bmScores : List ℚ) (md5 : String → String) (docs : List Doc)
    (kv : Nat) (method : String) (returnScores : Bool) :
    Except RetrieveErr (List Doc × List ℚ) :=
  if method = "hybrid" then
    .ok (hybridRetrieval md5 (faissWS kv) docs bmScores kv returnScores)
  else if method = "faiss" then
    .ok (faissRetrieval (faissWS kv) (faissNS kv) returnScores)
  else if method = "bm25" then
    .ok (bm25Retrieval docs bmScores kv returnScores)
  else .error (.unknownMethod method)

/-- Dict lookup `query_cache[query_hash]` (first matching key). -/
def lookupEntry (qh : String) (entries : List (String × RetrievalResult × ℤ)) :
    Option (RetrievalResult × ℤ) :=
  match entries.find? (fun e => e.1 == qh) with
  | none => none
  | some e => some e.2

/-- Dict store `query_cache[query_hash] = {...}` (replace or add). -/
def insertEntry (qh : String) (res : RetrievalResult) (ts : ℤ)
    (entries : List (String × RetrievalResult × ℤ)) :
    List (String × RetrievalResult × ℤ) :=
  (qh, res, ts) :: entries.filter (fun e => e.1 != qh)

/-- The cache-hit check of `retrieve_documents` (lines 418-422):
`if self.query_cache and query_hash in self.query_cache` — note the python
truthiness: an empty dict fails the first conjunct — followed by the
freshness test `time.time() - timestamp < cache_ttl`. -/
def liveHit (r : Retriever) (qh : String) (now : ℤ) : Option RetrievalResult :=
  match r.queryCache with
  | none => none
  | some entries =>
    if entries.isEmpty then none
    else match lookupEntry qh entries with
      | none => none
      | some (res, ts) => if now - ts < r.config.cacheTtl then some res else none

/-- `k = k or self.config.top_k_retrieval` (line 413): `None` and `0` are
both falsy in python. -/
def resolveK (k : Option Nat) (defaultK : Nat) : Nat :=
  match k with
  | none => defaultK
  | some n => if n = 0 then defaultK else n

/-- The cache-miss path of `retrieve_documents` (lines 424-453): dispatch on
the method, build the `RetrievalResult`, and store it in the cache — but
only when `if self.query_cache:` is truthy, i.e. the dict is non-`None` AND
non-empty (lines 446-450). -/
def retrieveMiss (faissWS : Nat → List (Doc × ℚ)) (faissNS : Nat → List Doc)
    (bmScores : List ℚ) (md5 : String → String) (r : Retriever) (q : String)
    (kv : Nat) (method : String) (returnScores : Bool) (tStart tEnd : ℤ) :
    Except RetrieveErr (RetrievalResult × Retriever) :=
  match dispatchMethod faissWS faissNS bmScores md5 r.documents kv method returnScores with
  | .error e => .error e
  | .ok (ds, ss) =>
    let result : RetrievalResult :=
      { documents := ds
        scores := if returnScores then ss else []
        retrievalTime := tEnd - tStart
        methodUsed := method
        queryHash := md5 q
        totalCandidates := r.documents.length }
    let r2 : Retriever :=
      match r.queryCache with
      | none => r
      | some entries =>
        if entries.isEmpty then r
        else { r with queryCache := some (insertEntry (md5 q) result tEnd entries) }
    .ok (result, r2)

/-- `retrieve_documents` (lines 391-457): loaded check, `k` resolution,
query hash, cache check, then the miss path. -/
def retrieveDocuments (faissWS : Nat → List (Doc × ℚ)) (faissNS : Nat → List Doc)
    (bmScores : List ℚ) (md5 : String → String) (r : Retriever) (q : String)
    (k : Option Nat) (method : String) (returnScores : Bool) (tStart tEnd : ℤ) :
    Except RetrieveErr (RetrievalResult × Retriever) :=
  if r.vectorStore.isNone ∨ r.bm25.isNone then .error .notLoaded
  else
    match liveHit r (md5 q) tStart with
    | some res => .ok (res, r)
    | none =>
      retrieveMiss faissWS faissNS bmScores md5 r q (resolveK k r.config.topKRetrieval)
        method returnScores tStart tEnd

/-- The access-denied test of `_initialize_embeddings` (line 198):
`"403" in str(e) or "Forbidden" in str(e)`. -/
def mentionsBlocked (e : String) : Bool :=
  decide ("403".data <:+: e.data) || decide ("Forbidden".data <:+: e.data)

/-- `_initialize_embeddings` (lines 169-213). `testOutcome` is the result of
the trial call `embed_query("test")` against the primary client: a vector or
an error message. An empty vector raises "Embeddings API returned empty
result", caught by the same handler as a provider error. On an error whose
text mentions "403" or "Forbidden" a fallback client without the base-URL
override is constructed — and is NOT given its own trial call. -/
def initEmbeddings (apiKey : Option String) (cfgModel : String)
    (cfgBaseUrl : Option String) (testOutcome : Except String (List ℚ)) :
    Except String EmbClient :=
  match apiKey with
  | none => .error "OPENAI_API_KEY environment variable not set"
  | some _ =>
    let testErr : Option String :=
      match testOutcome with
      | .ok v => if 0 < v.length then none else some "Embeddings API returned empty result"
      | .error e => some e
    match testErr with
    | none => .ok { model := cfgModel, baseUrl := cfgBaseUrl }
    | some e =>
      if mentionsBlocked e then .ok { model := cfgModel, baseUrl := none }
      else .error e

/-- `TradingKnowledgeRetriever.__init__` (lines 159-167): build the state and
run `_initialize_embeddings`; no configuration validation is performed. -/
def initRetriever (config : RetrievalConfig) (apiKey : Option String)
    (testOutcome : Except String (List ℚ)) : Except String Retriever :=
  match initEmbeddings apiKey config.embeddingModel config.baseUrl testOutcome with
  | .error e => .error e
  | .ok emb =>
    .ok { config := config
          embeddings := some emb
          vectorStore := none
          bm25 := none
          documents := []
          queryCache := if config.enableCaching then some [] else none }

/-- Python `str.split()` on chunk text (line 328), whitespace modelled as the
space character: split and drop empty tokens. -/
def pySplit (s : String) : List String :=
  (s.splitOn " ").filter (fun t => t ≠ "")

/-- The embedding pass of `FAISS.from_documents(self.documents, embeddings)`
(line 313): every chunk is embedded; the first provider failure propagates
out of the bulk call (there is no per-chunk handler anywhere in the
repository). -/
def embedAll (embed : Doc → Except String (List ℚ)) :
    List Doc → Except String (List (Doc × List ℚ))
  | [] => .ok []
  | d :: rest =>
    match embed d with
    | .error e => .error e
    | .ok v =>
      match embedAll embed rest with
      | .error e => .error e
      | .ok tl => .ok ((d, v) :: tl)

/-- `_build_bm25_index` (lines 322-336): tokenize every chunk. -/
def buildBm25Corpus (docs : List Doc) : List (List String) :=
  docs.map (fun d => pySplit d.pageContent)

/-- The state a successful build produces: the FAISS store over the embedded
chunks, the tokenized BM25 corpus and the chunk corpus itself. -/
structure BuildResult where
  vectorStore : List (Doc × List ℚ)
  bm25Corpus : List (List String)
  documents : List Doc
deriving DecidableEq, Repr

/-- The index-construction part of `build_retrieval_system` (lines 243-257),
starting from the already-chunked documents: fail if there are none
(line 245); build the FAISS index — `_build_faiss_index` catches any
exception and re-raises it (lines 318-320), so an embedding failure aborts
the build; only then build the BM25 index. -/
def buildRetrievalSystem (embed : Doc → Except String (List ℚ))
    (chunks : List Doc) : Except String BuildResult :=
  if chunks = [] then .error "No documents were successfully processed"
  else
    match embedAll embed chunks with
    | .error e => .error e
    | .ok vs =>
      .ok { vectorStore := vs, bm25Corpus := buildBm25Corpus chunks, documents := chunks }

/-- `load_retrieval_system` (lines 358-389). `faissExists`/`bm25Exists` are
the artifact-existence checks; `faissLoad` is `FAISS.load_local` (a handle or
an exception); `bm25Load` is the pickle read giving the BM25 handle and the
document list. Every failure is caught and reported as `false`; assignments
made before the failing statement keep their new values (`self.vector_store`
is assigned at line 371, before the pickle read at line 378). -/
def loadRetrievalSystem (r : Retriever) (faissExists bm25Exists : Bool)
    (faissLoad : Except String Nat) (bm25Load : Except String (Nat × List Doc)) :
    Retriever × Bool :=
  if !faissExists then (r, false)
  else if !bm25Exists then (r, false)
  else
    match faissLoad with
    | .error _ => (r, false)
    | .ok vs =>
      match bm25Load with
      | .error _ => ({ r with vectorStore := some vs }, false)
      | .ok (b, docs) =>
        ({ r with vectorStore := some vs, bm25 := some b, documents := docs }, true)

/-! Concrete inputs used by counterexamples and witnesses. -/

/-- Two corpus chunks with byte-identical content from different source
positions. -/
def docA : Doc := ⟨"alpha beta", "c0"⟩

def docB : Doc := ⟨"alpha beta", "c1"⟩

def docC : Doc := ⟨"gamma delta", "c2"⟩

/-- An identity stand-in for the md5 hex digest: injective on contents, which
is all the dedup logic observes. -/
def md5Id : String → String := fun s => s

/-- FAISS scored search returning no candidates. -/
def extFaissWS : Nat → List (Doc × ℚ) := fun _ => []

/-- FAISS unscored search returning no candidates. -/
def extFaissNS : Nat → List Doc := fun _ => []

/-- An embedding provider that fails on chunk `c1` only. -/
def embedBad (d : Doc) : Except String (List ℚ) :=
  if d.chunkId = "c1" then .error "embed failed" else .ok [1]

/-- A configuration violating `chunk_overlap < chunk_size`. -/
def cfgBad : RetrievalConfig := { chunkSize := 100, chunkOverlap := 200 }

/-- A loaded retriever with caching disabled. -/
def rLoaded : Retriever :=
  { config := { enableCaching := false }
    embeddings := some ⟨"text-embedding-3-small", none⟩
    vectorStore := some 1
    bm25 := some 1
    documents := [docA, docB]
    queryCache := none }

/-- A loaded retriever holding previously loaded in-memory state. -/
def rOld : Retriever :=
  { config := {}
    embeddings := some ⟨"text-embedding-3-small", none⟩
    vectorStore := some 1
    bm25 := some 2
    documents := [docA]
    queryCache := some [] }

/-- A freshly constructed, then loaded, retriever with caching enabled: its
query cache is the empty dict. -/
def rCache : Retriever :=
  { config := {}
    embeddings := some ⟨"text-embedding-3-small", none⟩
    vectorStore := some 1
    bm25 := some 1
    documents := []
    queryCache := some [] }

/-- A stale cached result used to exercise expiry. -/
def resStale : RetrievalResult :=
  { documents := [docC], scores := [], retrievalTime := 1, methodUsed := "bm25"
    queryHash := "q", totalCandidates := 1 }

/-- A retriever whose cache holds an entry for query hash "q" stored at
time 0, with a 10-second TTL. -/
def rStale : Retriever :=
  { config := { cacheTtl := 10 }
    embeddings := some ⟨"text-embedding-3-small", none⟩
    vectorStore := some 1
    bm25 := some 1
    documents := [docA, docB]
    queryCache := some [("q", resStale, 0)] }

/-- The instance `initRetriever cfgBad (some "key") (.ok [1])` produces. -/
def rBad : Retriever :=
  { config := cfgBad
    embeddings := some ⟨"text-embedding-3-small", none⟩
    vectorStore := none
    bm25 := none
    documents := []
    queryCache := some [] }

/-- The client `initEmbeddings` yields on a successful trial call with the
default configuration. -/
def embW : EmbClient := ⟨"text-embedding-3-small", none⟩

/-- The result of the first retrieve call against `rCache` (times 0 → 1). -/
def resFirst : RetrievalResult :=
  { documents := [], scores := [], retrievalTime := 1, methodUsed := "bm25"
    queryHash := "q", totalCandidates := 0 }

/-- The result of the second retrieve call against `rCache` (times 2 → 4):
re-scored from scratch, so its retrieval time differs. -/
def resSecond : RetrievalResult :=
  { documents := [], scores := [], retrievalTime := 2, methodUsed := "bm25"
    queryHash := "q", totalCandidates := 0 }

/-- The result of a BM25 retrieve against `rLoaded` with scores requested. -/
def resScored : RetrievalResult :=
  { documents := [docB, docA], scores := [2, 1], retrievalTime := 1, methodUsed := "bm25"
    queryHash := "q", totalCandidates := 2 }

/-! Helper lemmas. -/

theorem embedAll_error_of_mem (embed : Doc → Except String (List ℚ))
    (chunks : List Doc) (d : Doc) (e : String) (hd : d ∈ chunks)
    (he : embed d = .error e) :
    ∃ e', embedAll embed chunks = .error e' := by
  induction chunks with
  | nil => cases hd
  | cons a tl ih =>
    rcases List.mem_cons.mp hd with hd | hd
    · subst hd
      exact ⟨e, by simp [embedAll, he]⟩
    · cases ha : embed a with
      | error e'' => exact ⟨e'', by simp [embedAll, ha]⟩
      | ok v =>
        obtain ⟨e', htl⟩ := ih hd
        exact ⟨e', by simp [embedAll, ha, htl]⟩

/-! C3. The spec claims a single chunk's embedding failure is tolerated:
the build completes with that chunk excluded from the semantic index but
still present in the lexical index and the corpus. The code aborts instead:
`_build_faiss_index` re-raises any exception out of
`FAISS.from_documents` (lines 318-320), and `build_retrieval_system` calls
`_build_bm25_index` only after the FAISS build returns (lines 251-254). -/

/-- C3 counterexample: with a corpus of two chunks and an embedding provider
that fails only on chunk `c1` (`docB`), the build aborts with that error; it
does not complete with `docB` excluded, and no lexical index is built. -/
theorem c3_counterexample :
    buildRetrievalSystem embedBad [docA, docB] = .error "embed failed" := by
  decide

/-- C3 amended: during index build, if the embedding of any chunk fails, the
build aborts with an error — the semantic index build re-raises the
embedding failure and the lexical index is never built; no index excluding
the failed chunk is produced. -/
theorem c3_amended (embed : Doc → Except String (List ℚ)) (chunks : List Doc)
    (d : Doc) (e : String) (hd : d ∈ chunks) (he : embed d = .error e) :
    ∃ e', buildRetrievalSystem embed chunks = .error e' := by
  obtain ⟨e', he'⟩ := embedAll_error_of_mem embed chunks d e hd he
  have hne : chunks ≠ [] := List.ne_nil_of_mem hd
  exact ⟨e', by simp [buildRetrievalSystem, hne, he']⟩

/-- C3 witness: the amended claim applied to the two-chunk corpus with the
provider failing on `docB`. -/
theorem c3_witness :
    docB ∈ [docA, docB] ∧ embedBad docB = .error "embed failed" ∧
    ∃ e', buildRetrievalSystem embedBad [docA, docB] = .error e' :=
  ⟨by decide, by decide,
   c3_amended embedBad [docA, docB] docB "embed failed" (by decide) (by decide)⟩

/-! C4. The spec claims the three accepted method values are `hybrid`,
`semantic`, `lexical`. The code accepts `hybrid`, `faiss`, `bm25`
(lines 425-432) and raises "Unknown retrieval method" for everything
else — including `semantic` and `lexical`. -/

/-- C4 counterexample: on a loaded retriever, `method="semantic"` and
`method="lexical"` — both inside the claim's accepted set — fail with the
unknown-method error. -/
theorem c4_counterexample :
    retrieveDocuments extFaissWS extFaissNS [] md5Id rLoaded "q" none "semantic" false 0 1
      = .error (.unknownMethod "semantic") ∧
    retrieveDocuments extFaissWS extFaissNS [] md5Id rLoaded "q" none "lexical" false 0 1
      = .error (.unknownMethod "lexical") := by
  constructor <;> rfl

/-- C4 amended: for every loaded retriever (and no live cache hit for the
query, which would bypass method validation), retrieve accepts exactly the
three method values `hybrid`, `faiss`, `bm25`: it fails with the
unknown-method error precisely for method strings outside this set. -/
theorem c4_amended (faissWS : Nat → List (Doc × ℚ)) (faissNS : Nat → List Doc)
    (bmScores : List ℚ) (md5 : String → String) (r : Retriever) (q : String)
    (k : Option Nat) (ws : Bool) (t t' : ℤ) (m : String)
    (hv : r.vectorStore.isSome) (hb : r.bm25.isSome)
    (hmiss : liveHit r (md5 q) t = none) :
    retrieveDocuments faissWS faissNS bmScores md5 r q k m ws t t'
        = .error (.unknownMethod m) ↔ m ∉ (["hybrid", "faiss", "bm25"] : List String) := by
  obtain ⟨a, ha⟩ := Option.isSome_iff_exists.mp hv
  obtain ⟨b, hbb⟩ := Option.isSome_iff_exists.mp hb
  simp only [retrieveDocuments, ha, hbb, hmiss, Option.isNone_some, retrieveMiss,
    dispatchMethod, List.mem_cons, List.not_mem_nil, or_false]
  by_cases h1 : m = "hybrid"
  · simp [h1]
  · by_cases h2 : m = "faiss"
    · simp [h1, h2]
    · by_cases h3 : m = "bm25"
      · simp [h1, h2, h3]
      · simp [h1, h2, h3]

/-- C4 witness: the amended claim applied to a loaded retriever and the
method string "bogus". -/
theorem c4_witness :
    rLoaded.vectorStore.isSome = true ∧ rLoaded.bm25.isSome = true ∧
    liveHit rLoaded "q" 0 = none ∧
    (retrieveDocuments extFaissWS extFaissNS [] md5Id rLoaded "q" none "bogus" false 0 1
        = .error (.unknownMethod "bogus") ↔
      "bogus" ∉ (["hybrid", "faiss", "bm25"] : List String)) :=
  ⟨by decide, by decide, rfl,
   c4_amended extFaissWS extFaissNS [] md5Id rLoaded "q" none false 0 1 "bogus"
     (by decide) (by decide) rfl⟩

/-! C6. The spec claims a failed load is fatal with a `PersistenceError` and
leaves the previously loaded in-memory state exactly as it was. The code
catches every failure and returns `False` instead of raising (lines
387-389), and assigns `self.vector_store` (line 371) before reading the
BM25 artifact (line 378), so a pickle failure leaves a mix of the new
vector store with the old BM25 index and corpus. -/

/-- C6 counterexample: on a retriever holding previously loaded state, a
load whose FAISS artifact loads but whose BM25 artifact read fails returns
`false` (no exception) and leaves MIXED state: the new vector store
alongside the old BM25 index and documents — not the prior state. -/
theorem c6_counterexample :
    (loadRetrievalSystem rOld true true (.ok 7) (.error "corrupt pickle")).1 ≠ rOld ∧
    (loadRetrievalSystem rOld true true (.ok 7) (.error "corrupt pickle")).2 = false ∧
    (loadRetrievalSystem rOld true true (.ok 7) (.error "corrupt pickle")).1.vectorStore
      = some 7 ∧
    (loadRetrievalSystem rOld true true (.ok 7) (.error "corrupt pickle")).1.bm25
      = rOld.bm25 := by
  decide

/-- C6 amended: a failed load returns `false` rather than raising; the BM25
index and document corpus always keep their previous values on failure, and
the in-memory state is exactly as before except when the FAISS artifact
loaded and the BM25 artifact read failed, in which case the vector store
alone has been replaced by the newly loaded one (mixed state). -/
theorem c6_amended (r : Retriever) (fe be : Bool) (fl : Except String Nat)
    (bl : Except String (Nat × List Doc))
    (h : (loadRetrievalSystem r fe be fl bl).2 = false) :
    (loadRetrievalSystem r fe be fl bl).1.bm25 = r.bm25 ∧
    (loadRetrievalSystem r fe be fl bl).1.documents = r.documents ∧
    ((loadRetrievalSystem r fe be fl bl).1 = r ∨
      ∃ vs e, fl = .ok vs ∧ bl = .error e ∧
        (loadRetrievalSystem r fe be fl bl).1 = { r with vectorStore := some vs }) := by
  cases fe with
  | false => simp [loadRetrievalSystem]
  | true =>
    cases be with
    | false => simp [loadRetrievalSystem]
    | true =>
      cases fl with
      | error e => simp [loadRetrievalSystem]
      | ok vs =>
        cases bl with
        | error e => exact ⟨rfl, rfl, Or.inr ⟨vs, e, rfl, rfl, rfl⟩⟩
        | ok p => simp [loadRetrievalSystem] at h

/-- C6 witness: the amended claim applied to the mixed-state load. -/
theorem c6_witness :
    (loadRetrievalSystem rOld true true (.ok 7) (.error "x")).2 = false ∧
    ((loadRetrievalSystem rOld true true (.ok 7) (.error "x")).1.bm25 = rOld.bm25 ∧
     (loadRetrievalSystem rOld true true (.ok 7) (.error "x")).1.documents = rOld.documents ∧
     ((loadRetrievalSystem rOld true true (.ok 7) (.error "x")).1 = rOld ∨
       ∃ vs e, (.ok 7 : Except String Nat) = .ok vs ∧
         (.error "x" : Except String (Nat × List Doc)) = .error e ∧
         (loadRetrievalSystem rOld true true (.ok 7) (.error "x")).1
           = { rOld with vectorStore := some vs })) :=
  ⟨by decide, c6_amended rOld true true (.ok 7) (.error "x") (by decide)⟩

/-! C7. The spec claims construction validates the configuration
(`chunk_overlap < chunk_size`, `k > 0`, `max_workers >= 1`) and fails with a
`ConfigError` on invalid input. Neither `RetrievalConfig` (lines 50-65) nor
`TradingKnowledgeRetriever.__init__` (lines 159-167) performs any
validation, and no `ConfigError` exists in the repository. -/

/-- C7 counterexample: construction with `chunk_overlap = 200 ≥
chunk_size = 100` succeeds (given a successful embedding trial call) and
produces an instance whose configuration violates the claimed invariant. -/
theorem c7_counterexample :
    initRetriever cfgBad (some "key") (.ok [1]) = .ok rBad ∧
    ¬ rBad.config.chunkOverlap < rBad.config.chunkSize := by
  decide

/-- C7 amended: construction performs no configuration validation: whenever
the embedding initialization succeeds, construction succeeds and stores the
given configuration unchanged — including configurations with
`chunk_overlap ≥ chunk_size`, `top_k = 0` or `max_workers = 0`. -/
theorem c7_amended (cfg : RetrievalConfig) (key : Option String)
    (test : Except String (List ℚ)) (emb : EmbClient)
    (h : initEmbeddings key cfg.embeddingModel cfg.baseUrl test = .ok emb) :
    initRetriever cfg key test =
      .ok { config := cfg, embeddings := some emb, vectorStore := none, bm25 := none,
            documents := [], queryCache := if cfg.enableCaching then some [] else none } := by
  simp [initRetriever, h]

/-- C7 witness: the amended claim applied to the invalid configuration
`cfgBad`. -/
theorem c7_witness :
    initEmbeddings (some "key") cfgBad.embeddingModel cfgBad.baseUrl (.ok [1]) = .ok embW ∧
    initRetriever cfgBad (some "key") (.ok [1]) =
      .ok { config := cfgBad, embeddings := some embW, vectorStore := none, bm25 := none,
            documents := [],
            queryCache := if cfgBad.enableCaching then some [] else none } :=
  ⟨by decide, c7_amended cfgBad (some "key") (.ok [1]) embW (by decide)⟩

/-! C8. The spec claims the one-shot fallback happens exactly when the trial
call fails with an access-denied error AND a custom endpoint override was
configured. The code's handler (lines 197-209) checks only whether the
error text contains "403" or "Forbidden" — it never consults
`self.config.base_url` — and the fallback client is constructed without a
trial call of its own (lines 200-207). -/

/-- C8 counterexample: with NO endpoint override configured, a trial failure
mentioning 403 still triggers the fallback and construction succeeds — the
claim says such a failure (no override) is fatal to construction. -/
theorem c8_counterexample :
    initEmbeddings (some "key") "text-embedding-3-small" none (.error "HTTP 403") =
      .ok { model := "text-embedding-3-small", baseUrl := none } := by
  decide

/-- C8 amended: when the trial call fails, the one-shot retry against the
default (un-overridden) endpoint happens exactly when the error text
contains "403" or "Forbidden", regardless of whether an endpoint override
was configured; any other trial failure is fatal. The fallback client is
not given a trial call of its own, so construction succeeds whenever the
fallback branch is taken. -/
theorem c8_amended (key model : String) (baseUrl : Option String) (e : String) :
    initEmbeddings (some key) model baseUrl (.error e) =
      (if mentionsBlocked e then .ok { model := model, baseUrl := none }
       else .error e) := by
  rfl

/-! C2. The spec claims two retrieve calls with the same query text within
`cache_ttl` return the same stored `RetrievalResult` without re-scoring.
The store step (lines 446-450) is guarded by `if self.query_cache:`, and in
python an EMPTY dict is falsy — so starting from the empty cache every
constructed retriever has, results are never stored, the cache stays empty
forever, and every call re-scores. This contradicts the code's own intent
(`# Cache result`, `enable_caching`, `cache_ttl`, the hit path at lines
418-422): the guard should have been `if self.query_cache is not None:`. -/

/-- C2 failing run: on a loaded retriever with caching enabled (and hence
the empty query cache every fresh instance has), a successful retrieve
leaves the cache empty — nothing is stored — and a second call with the
same query text two seconds later re-executes scoring and returns a
different `RetrievalResult` (different `retrieval_time`), not the stored
one. -/
theorem c2_theorem :
    retrieveDocuments extFaissWS extFaissNS [] md5Id rCache "q" none "bm25" false 0 1
      = .ok (resFirst, rCache) ∧
    rCache.queryCache = some [] ∧
    retrieveDocuments extFaissWS extFaissNS [] md5Id rCache "q" none "bm25" false 2 4
      = .ok (resSecond, rCache) ∧
    resSecond ≠ resFirst := by
  refine ⟨rfl, rfl, rfl, by decide⟩

/-! C9. Cache expiry: an entry is live only while `now - created_at <
cache_ttl`; an expired entry is treated as absent on read (lines 418-422)
and the re-scored result replaces it on success (lines 446-450; the store
guard is satisfied because the expired entry makes the dict non-empty). -/

/-- C9 confirmed: with a cache entry for the query whose age has reached
`cache_ttl`, retrieve takes the full miss path (re-executes scoring exactly
as if the entry were absent), and whenever that path succeeds the new state
stores the fresh result under the query hash with the current time. -/
theorem c9_expiry (faissWS : Nat → List (Doc × ℚ)) (faissNS : Nat → List Doc)
    (bmScores : List ℚ) (md5 : String → String) (r : Retriever) (q : String)
    (k : Option Nat) (m : String) (ws : Bool) (t t' : ℤ)
    (entries : List (String × RetrievalResult × ℤ)) (resC : RetrievalResult) (ts : ℤ)
    (hv : r.vectorStore.isSome) (hb : r.bm25.isSome)
    (hc : r.queryCache = some entries)
    (hl : lookupEntry (md5 q) entries = some (resC, ts))
    (hexp : r.config.cacheTtl ≤ t - ts) :
    retrieveDocuments faissWS faissNS bmScores md5 r q k m ws t t'
      = retrieveMiss faissWS faissNS bmScores md5 r q
          (resolveK k r.config.topKRetrieval) m ws t t'
    ∧ ∀ res r2,
        retrieveMiss faissWS faissNS bmScores md5 r q
            (resolveK k r.config.topKRetrieval) m ws t t' = .ok (res, r2) →
        r2.queryCache = some (insertEntry (md5 q) res t' entries) := by
  obtain ⟨a, ha⟩ := Option.isSome_iff_exists.mp hv
  obtain ⟨b, hbb⟩ := Option.isSome_iff_exists.mp hb
  have hne : entries ≠ [] := by
    intro h
    rw [h] at hl
    simp [lookupEntry] at hl
  have hemp : entries.isEmpty = false := by
    cases entries with
    | nil => exact absurd rfl hne
    | cons e tl => rfl
  have hlt : ¬ (t - ts < r.config.cacheTtl) := not_lt.mpr hexp
  have hhit : liveHit r (md5 q) t = none := by
    simp [liveHit, hc, hemp, hl, hlt]
  constructor
  · simp [retrieveDocuments, ha, hbb, hhit]
  · intro res r2 hok
    unfold retrieveMiss at hok
    cases hd : dispatchMethod faissWS faissNS bmScores md5 r.documents
        (resolveK k r.config.topKRetrieval) m ws with
    | error e => rw [hd] at hok; cases hok
    | ok p =>
      obtain ⟨ds, ss⟩ := p
      rw [hd] at hok
      simp only [hc, hemp, Bool.false_eq_true, if_false] at hok
      cases hok
      rfl

/-- C9 witness: the expiry theorem applied to `rStale` (TTL 10, entry stored
at time 0) read at time 50. -/
theorem c9_witness :
    rStale.vectorStore.isSome = true ∧ rStale.bm25.isSome = true ∧
    rStale.queryCache = some [("q", resStale, 0)] ∧
    lookupEntry (md5Id "q") [("q", resStale, 0)] = some (resStale, 0) ∧
    rStale.config.cacheTtl ≤ 50 - 0 ∧
    (retrieveDocuments extFaissWS extFaissNS [] md5Id rStale "q" none "bm25" false 50 51
        = retrieveMiss extFaissWS extFaissNS [] md5Id rStale "q"
            (resolveK none rStale.config.topKRetrieval) "bm25" false 50 51
      ∧ ∀ res r2,
          retrieveMiss extFaissWS extFaissNS [] md5Id rStale "q"
              (resolveK none rStale.config.topKRetrieval) "bm25" false 50 51
            = .ok (res, r2) →
          r2.queryCache = some (insertEntry (md5Id "q") res 51 [("q", resStale, 0)])) :=
  ⟨by decide, by decide, rfl, by decide, by decide,
   c9_expiry extFaissWS extFaissNS [] md5Id rStale "q" none "bm25" false 50 51
     [("q", resStale, 0)] resStale 0 (by decide) (by decide) rfl (by decide) (by decide)⟩

/-! C10. Shape of the scores list of a successful cache-miss retrieve. -/

theorem dispatch_lengths (faissWS : Nat → List (Doc × ℚ)) (faissNS : Nat → List Doc)
    (bmScores : List ℚ) (md5 : String → String) (docs : List Doc) (kv : Nat)
    (m : String) (ds : List Doc) (ss : List ℚ)
    (h : dispatchMethod faissWS faissNS bmScores md5 docs kv m true = .ok (ds, ss)) :
    ss.length = ds.length := by
  unfold dispatchMethod at h
  split_ifs at h with h1 h2 h3
  · simp only [hybridRetrieval, if_true] at h
    cases h
    simp
  · simp only [faissRetrieval, if_true] at h
    cases h
    simp
  · simp only [bm25Retrieval, if_true] at h
    cases h
    simp

/-- C10 confirmed: every successful retrieve on a cache miss returns a
result whose scores list is empty when scores were not requested, and has
exactly the same length as the documents list when they were (the two lists
are built positionally in lockstep in every method). -/
theorem c10_scores_shape (faissWS : Nat → List (Doc × ℚ)) (faissNS : Nat → List Doc)
    (bmScores : List ℚ) (md5 : String → String) (r : Retriever) (q : String)
    (k : Option Nat) (m : String) (ws : Bool) (t t' : ℤ) (res : RetrievalResult)
    (r2 : Retriever)
    (hmiss : liveHit r (md5 q) t = none)
    (hok : retrieveDocuments faissWS faissNS bmScores md5 r q k m ws t t'
      = .ok (res, r2)) :
    (ws = false → res.scores = []) ∧
    (ws = true → res.scores.length = res.documents.length) := by
  unfold retrieveDocuments at hok
  split_ifs at hok with hload
  rw [hmiss] at hok
  unfold retrieveMiss at hok
  cases hd : dispatchMethod faissWS faissNS bmScores md5 r.documents
      (resolveK k r.config.topKRetrieval) m ws with
  | error e => rw [hd] at hok; cases hok
  | ok p =>
    obtain ⟨ds, ss⟩ := p
    rw [hd] at hok
    cases ws with
    | false =>
      cases hok
      exact ⟨fun _ => rfl, fun h => by cases h⟩
    | true =>
      cases hok
      have hlen := dispatch_lengths faissWS faissNS bmScores md5 r.documents
        (resolveK k r.config.topKRetrieval) m ds ss hd
      exact ⟨(fun h => by cases h), fun _ => by simpa using hlen⟩

/-- C10 witness: a scored BM25 retrieve on `rLoaded`. -/
theorem c10_witness :
    liveHit rLoaded (md5Id "q") 0 = none ∧
    retrieveDocuments extFaissWS extFaissNS [1, 2] md5Id rLoaded "q" none "bm25" true 0 1
      = .ok (resScored, rLoaded) ∧
    ((true = false → resScored.scores = []) ∧
     (true = true → resScored.scores.length = resScored.documents.length)) :=
  ⟨rfl, by decide,
   c10_scores_shape extFaissWS extFaissNS [1, 2] md5Id rLoaded "q" none "bm25" true 0 1
     resScored rLoaded rfl (by decide)⟩

/-! C5. Lexical retrieval tie-break. `np.argsort(scores)[-k:][::-1]` takes
the LAST `k` entries of the ascending argsort and reverses them, so among
equal scores the higher corpus index is both preferred for selection and
ordered first — the opposite of the spec's "first-seen wins". -/

theorem argsortAsc_length (s : List ℚ) : (argsortAsc s).length = s.length := by
  unfold argsortAsc
  rw [(List.perm_insertionSort (lexLe s) (List.range s.length)).length_eq,
    List.length_range]

theorem argsortAsc_reverse (s : List ℚ) :
    (argsortAsc s).reverse = List.insertionSort (lexGe s) (List.range s.length) := by
  refine List.eq_of_perm_of_sorted ?_ ?_ (List.sorted_insertionSort _ _)
  · exact ((List.reverse_perm _).trans (List.perm_insertionSort _ _)).trans
      (List.perm_insertionSort _ _).symm
  · show List.Pairwise (lexGe s) (argsortAsc s).reverse
    rw [List.pairwise_reverse]
    have hs := List.sorted_insertionSort (lexLe s) (List.range s.length)
    refine hs.imp ?_
    intro a b hab
    rcases hab with h | ⟨h, hle⟩
    · exact Or.inl h
    · exact Or.inr ⟨h.symm, hle⟩

theorem topIndices_eq (s : List ℚ) (k : Nat) :
    topIndices s k = (List.insertionSort (lexGe s) (List.range s.length)).take k := by
  rw [← argsortAsc_reverse]
  unfold topIndices
  rw [List.reverse_drop, argsortAsc_length]
  by_cases hk : k ≤ s.length
  · congr 1
    omega
  · have hlen : ((argsortAsc s).reverse).length = s.length := by
      simp [argsortAsc_length]
    have h1 : ((argsortAsc s).reverse).length ≤ s.length - (s.length - k) := by
      rw [hlen]; omega
    have h2 : ((argsortAsc s).reverse).length ≤ k := by
      rw [hlen]; omega
    rw [List.take_of_length_le h1, List.take_of_length_le h2]

/-- C5 counterexample: a corpus of two chunks with byte-identical content
(hence equal BM25 scores, here both 1) and `k = 1`: the code returns the
second (last-seen) chunk, while the spec's first-seen tie-break selects the
first. -/
theorem c5_counterexample :
    bm25Retrieval [docA, docB] [1, 1] 1 false = ([docB], []) ∧
    bm25SpecFirstSeen [docA, docB] [1, 1] 1 false = ([docA], []) ∧
    bm25Retrieval [docA, docB] [1, 1] 1 false
      ≠ bm25SpecFirstSeen [docA, docB] [1, 1] 1 false := by
  refine ⟨by decide, by decide, by decide⟩

/-- C5 amended: lexical-only retrieval scores every corpus chunk and returns
the `k` highest-scoring chunks in descending score order, with ties between
equal-scoring chunks broken by corpus order so that the LAST-seen
(highest-index) chunk wins, both for selection and for ordering (with
`np.argsort` modelled as a stable ascending sort). -/
theorem c5_amended (docs : List Doc) (scores : List ℚ) (k : Nat) (rs : Bool)
    (hk : 1 ≤ k) :
    bm25Retrieval docs scores k rs = bm25SpecLastSeen docs scores k rs := by
  simp only [bm25Retrieval, bm25SpecLastSeen, topIndices_eq]

/-- C5 witness: the amended claim at the tied two-chunk corpus. -/
theorem c5_witness :
    1 ≤ 1 ∧
    bm25Retrieval [docA, docB] [1, 1] 1 false
      = bm25SpecLastSeen [docA, docB] [1, 1] 1 false :=
  ⟨by decide, c5_amended [docA, docB] [1, 1] 1 false (by decide)⟩

/-! C1. Hybrid merge: walk lemmas relating the code's two loops to the
spec-described merge, plus the dedup and length invariants. -/

theorem addFaiss_length_ge (md5 : String → String) (l : List (Doc × ℚ))
    (acc : List (Doc × ℚ)) (seen : List String) :
    acc.length ≤ (addFaiss md5 l acc seen).1.length := by
  induction l generalizing acc seen with
  | nil => simp [addFaiss]
  | cons p rest ih =>
    obtain ⟨d, s⟩ := p
    by_cases h : md5 d.pageContent ∈ seen
    · simpa [addFaiss, h] using ih acc seen
    · have hx := ih (acc ++ [(d, s)]) (md5 d.pageContent :: seen)
      simp only [addFaiss, if_neg h]
      simp only [List.length_append, List.length_cons, List.length_nil] at hx
      omega

theorem addFaiss_length_le (md5 : String → String) (l : List (Doc × ℚ))
    (acc : List (Doc × ℚ)) (seen : List String) :
    (addFaiss md5 l acc seen).1.length ≤ acc.length + l.length := by
  induction l generalizing acc seen with
  | nil => simp [addFaiss]
  | cons p rest ih =>
    obtain ⟨d, s⟩ := p
    by_cases h : md5 d.pageContent ∈ seen
    · have hx := ih acc seen
      simp only [addFaiss, if_pos h, List.length_cons]
      omega
    · have hx := ih (acc ++ [(d, s)]) (md5 d.pageContent :: seen)
      simp only [addFaiss, if_neg h, List.length_cons]
      simp only [List.length_append, List.length_cons, List.length_nil] at hx
      omega

theorem addFaiss_of_length_eq (md5 : String → String) (l : List (Doc × ℚ))
    (acc : List (Doc × ℚ)) (seen : List String)
    (h : (addFaiss md5 l acc seen).1.length = acc.length) :
    addFaiss md5 l acc seen = (acc, seen) := by
  induction l generalizing acc seen with
  | nil => rfl
  | cons p rest ih =>
    obtain ⟨d, s⟩ := p
    by_cases hm : md5 d.pageContent ∈ seen
    · simp only [addFaiss, if_pos hm] at h ⊢
      exact ih acc seen h
    · exfalso
      simp only [addFaiss, if_neg hm] at h
      have hge := addFaiss_length_ge md5 rest (acc ++ [(d, s)]) (md5 d.pageContent :: seen)
      simp only [List.length_append, List.length_cons, List.length_nil] at hge
      omega

theorem specWalk_eq_addFaiss (md5 : String → String) (k : Nat) (l : List (Doc × ℚ))
    (acc : List (Doc × ℚ)) (seen : List String)
    (h : (addFaiss md5 l acc seen).1.length ≤ k) :
    specWalk md5 k l acc seen = addFaiss md5 l acc seen := by
  induction l generalizing acc seen with
  | nil => rfl
  | cons p rest ih =>
    obtain ⟨d, s⟩ := p
    by_cases hk : k ≤ acc.length
    · have hge := addFaiss_length_ge md5 ((d, s) :: rest) acc seen
      have heq : (addFaiss md5 ((d, s) :: rest) acc seen).1.length = acc.length :=
        le_antisymm (h.trans hk) hge
      rw [addFaiss_of_length_eq md5 _ _ _ heq]
      simp [specWalk, if_pos hk]
    · by_cases hm : md5 d.pageContent ∈ seen
      · simp only [addFaiss, if_pos hm] at h
        simp only [specWalk, addFaiss, if_neg hk, if_pos hm]
        exact ih acc seen h
      · simp only [addFaiss, if_neg hm] at h
        simp only [specWalk, addFaiss, if_neg hk, if_neg hm]
        exact ih _ _ h

theorem addBm25_eq_specWalk (md5 : String → String) (docs : List Doc)
    (scores : List ℚ) (k : Nat) (idxs : List Nat) (acc : List (Doc × ℚ))
    (seen : List String) :
    addBm25 md5 docs scores k idxs acc seen
      = specWalk md5 k (idxs.map (fun i => (docs.getD i defaultDoc, scoreAt scores i)))
          acc seen := by
  induction idxs generalizing acc seen with
  | nil => rfl
  | cons i rest ih =>
    simp only [List.map_cons]
    by_cases hk : k ≤ acc.length
    · simp [addBm25, specWalk, if_pos hk]
    · by_cases hm : md5 (docs.getD i defaultDoc).pageContent ∈ seen
      · simp only [addBm25, specWalk, if_neg hk, if_pos hm]
        exact ih acc seen
      · simp only [addBm25, specWalk, if_neg hk, if_neg hm]
        exact ih _ _

theorem specWalk_length_le (md5 : String → String) (k : Nat) (l : List (Doc × ℚ))
    (acc : List (Doc × ℚ)) (seen : List String) (h : acc.length ≤ k) :
    (specWalk md5 k l acc seen).1.length ≤ k := by
  induction l generalizing acc seen with
  | nil => simpa [specWalk] using h
  | cons p rest ih =>
    obtain ⟨d, s⟩ := p
    by_cases hk : k ≤ acc.length
    · simpa [specWalk, if_pos hk] using h
    · by_cases hm : md5 d.pageContent ∈ seen
      · simp only [specWalk, if_neg hk, if_pos hm]
        exact ih acc seen h
      · simp only [specWalk, if_neg hk, if_neg hm]
        refine ih _ _ ?_
        simp only [List.length_append, List.length_cons, List.length_nil]
        omega

theorem specWalk_nodup (md5 : String → String) (k : Nat) (l : List (Doc × ℚ))
    (acc : List (Doc × ℚ)) (seen : List String)
    (hnd : (acc.map (fun p => md5 p.1.pageContent)).Nodup)
    (hsub : ∀ h ∈ acc.map (fun p => md5 p.1.pageContent), h ∈ seen) :
    ((specWalk md5 k l acc seen).1.map (fun p => md5 p.1.pageContent)).Nodup ∧
    ∀ h ∈ (specWalk md5 k l acc seen).1.map (fun p => md5 p.1.pageContent),
      h ∈ (specWalk md5 k l acc seen).2 := by
  induction l generalizing acc seen with
  | nil => exact ⟨hnd, hsub⟩
  | cons p rest ih =>
    obtain ⟨d, s⟩ := p
    by_cases hk : k ≤ acc.length
    · simp only [specWalk, if_pos hk]
      exact ⟨hnd, hsub⟩
    · by_cases hm : md5 d.pageContent ∈ seen
      · simp only [specWalk, if_neg hk, if_pos hm]
        exact ih acc seen hnd hsub
      · simp only [specWalk, if_neg hk, if_neg hm]
        apply ih
        · simp only [List.map_append, List.map_cons, List.map_nil]
          rw [List.nodup_append]
          refine ⟨hnd, List.nodup_singleton _, fun x hx hy => ?_⟩
          rw [List.mem_singleton] at hy
          subst hy
          exact hm (hsub _ hx)
        · intro h hh
          simp only [List.map_append, List.mem_append, List.map_cons, List.map_nil,
            List.mem_singleton] at hh
          rcases hh with hh | hh
          · exact List.mem_cons_of_mem _ (hsub h hh)
          · subst hh
            exact List.mem_cons_self _ _

/-- C1 confirmed: for `k > 0` and a semantic candidate list of at most `k`
entries (the FAISS search is called with `k` and returns at most `k`
results), hybrid retrieval returns at most `k` chunks, its document list is
exactly the spec-described merge — semantic candidates walked first, then
lexical candidates, appending unseen content hashes until `k` are collected
or both lists are exhausted — and no two returned chunks share a content
hash. -/
theorem c1_theorem (md5 : String → String) (faissDocs : List (Doc × ℚ))
    (docs : List Doc) (bmScores : List ℚ) (k : Nat) (rs : Bool)
    (hk : 0 < k) (hsem : faissDocs.length ≤ k) :
    (hybridRetrieval md5 faissDocs docs bmScores k rs).1.length ≤ k ∧
    (hybridRetrieval md5 faissDocs docs bmScores k rs).1
      = (specHybridMerge md5 faissDocs (lexCandidates docs bmScores k) k).map Prod.fst ∧
    ((hybridRetrieval md5 faissDocs docs bmScores k rs).1.map
        (fun d => md5 d.pageContent)).Nodup := by
  have hlen1 : (addFaiss md5 faissDocs [] []).1.length ≤ k := by
    have hx := addFaiss_length_le md5 faissDocs [] []
    simp only [List.length_nil, Nat.zero_add] at hx
    exact hx.trans hsem
  have hsem_eq : specWalk md5 k faissDocs [] [] = addFaiss md5 faissDocs [] [] :=
    specWalk_eq_addFaiss md5 k faissDocs [] [] hlen1
  have hlex_eq : addBm25 md5 docs bmScores k (topIndices bmScores k)
      (addFaiss md5 faissDocs [] []).1 (addFaiss md5 faissDocs [] []).2
      = specWalk md5 k (lexCandidates docs bmScores k)
          (addFaiss md5 faissDocs [] []).1 (addFaiss md5 faissDocs [] []).2 := by
    rw [addBm25_eq_specWalk]
    rfl
  have hlen2 : (specWalk md5 k (lexCandidates docs bmScores k)
      (addFaiss md5 faissDocs [] []).1 (addFaiss md5 faissDocs [] []).2).1.length ≤ k :=
    specWalk_length_le md5 k _ _ _ hlen1
  have hhyb : (hybridRetrieval md5 faissDocs docs bmScores k rs).1
      = (specWalk md5 k (lexCandidates docs bmScores k)
          (addFaiss md5 faissDocs [] []).1 (addFaiss md5 faissDocs [] []).2).1.map
          Prod.fst := by
    simp only [hybridRetrieval]
    rw [hlex_eq, List.take_of_length_le hlen2]
  have hspec : specHybridMerge md5 faissDocs (lexCandidates docs bmScores k) k
      = (specWalk md5 k (lexCandidates docs bmScores k)
          (addFaiss md5 faissDocs [] []).1 (addFaiss md5 faissDocs [] []).2).1 := by
    simp only [specHybridMerge]
    rw [hsem_eq]
  have hnd1 := specWalk_nodup md5 k faissDocs [] [] (by simp) (by simp)
  rw [hsem_eq] at hnd1
  have hnd2 := specWalk_nodup md5 k (lexCandidates docs bmScores k)
      (addFaiss md5 faissDocs [] []).1 (addFaiss md5 faissDocs [] []).2 hnd1.1 hnd1.2
  refine ⟨?_, ?_, ?_⟩
  · rw [hhyb]
    simpa using hlen2
  · rw [hhyb, hspec]
  · rw [hhyb, List.map_map]
    simpa [Function.comp] using hnd2.1

/-- C1 witness: the merge theorem at a concrete two-chunk corpus with one
semantic candidate and `k = 2`. -/
theorem c1_witness :
    0 < 2 ∧ ([(docA, (1 : ℚ))] : List (Doc × ℚ)).length ≤ 2 ∧
    ((hybridRetrieval md5Id [(docA, 1)] [docA, docB] [2, 3] 2 true).1.length ≤ 2 ∧
     (hybridRetrieval md5Id [(docA, 1)] [docA, docB] [2, 3] 2 true).1
       = (specHybridMerge md5Id [(docA, 1)]
           (lexCandidates [docA, docB] [2, 3] 2) 2).map Prod.fst ∧
     ((hybridRetrieval md5Id [(docA, 1)] [docA, docB] [2, 3] 2 true).1.map
         (fun d => md5Id d.pageContent)).Nodup) :=
  ⟨by decide, by decide,
   c1_theorem md5Id [(docA, 1)] [docA, docB] [2, 3] 2 true (by decide) (by decide)⟩

end TradingRetrieval
